import Mathlib

/-!
# Verification of the capsule character motion solver

Shallow embedding of the capsule collision solver
(src/CapsuleCollision.ts).  The repository contains two revisions of the
class in files of the same name: the original one
(`processHorizontalMovement`, `processVerticalMovement`, ...) and the
later "crash-safe" one (`processHorizontal`, `processVertical`, ...).
Both are embedded where the claims need them; the crash-safe revision is
the primary model.

Numbers are modelled as real numbers; the JavaScript float operations
(sqrt, cos, acos) become the corresponding real functions.  The THREE.js
vector methods mutate in place and return `this`; where the source
exploits or trips over that (e.g. `v.normalize(), v.length()` in an
argument list, with left-to-right evaluation), the embedding reproduces
the post-mutation values faithfully.
-/

open Real

/-- 3D vector with real components (models `THREE.Vector3`). -/
structure Vec3 where
  x : ℝ
  y : ℝ
  z : ℝ

namespace Vec3

noncomputable instance : Add Vec3 := ⟨fun a b => ⟨a.x + b.x, a.y + b.y, a.z + b.z⟩⟩

noncomputable instance : Sub Vec3 := ⟨fun a b => ⟨a.x - b.x, a.y - b.y, a.z - b.z⟩⟩

noncomputable instance : SMul ℝ Vec3 := ⟨fun r v => ⟨r * v.x, r * v.y, r * v.z⟩⟩

/-- `THREE.Vector3.dot`. -/
noncomputable def dot (a b : Vec3) : ℝ := a.x * b.x + a.y * b.y + a.z * b.z

/-- `THREE.Vector3.lengthSq`. -/
noncomputable def lengthSq (v : Vec3) : ℝ := v.x * v.x + v.y * v.y + v.z * v.z

/-- `THREE.Vector3.length`. -/
noncomputable def length (v : Vec3) : ℝ := Real.sqrt v.lengthSq

/-- `THREE.Vector3.normalize`, i.e. `divideScalar(length() || 1)`:
division by 1 when the length is zero, otherwise by the length.
Like the source method it is meaningful for any vector. -/
noncomputable def normalize (v : Vec3) : Vec3 :=
  (1 / (if v.length = 0 then 1 else v.length)) • v

@[simp] theorem add_def (a b : Vec3) : a + b = ⟨a.x + b.x, a.y + b.y, a.z + b.z⟩ := rfl

@[simp] theorem sub_def (a b : Vec3) : a - b = ⟨a.x - b.x, a.y - b.y, a.z - b.z⟩ := rfl

@[simp] theorem smul_def (r : ℝ) (v : Vec3) : r • v = ⟨r * v.x, r * v.y, r * v.z⟩ := rfl

end Vec3

/-- `CapsuleCollisionConfig`: the solver's tunables.  `maxBounces` is the
horizontal-phase iteration cap, a (small) integer in both revisions. -/
structure Config where
  height : ℝ
  radius : ℝ
  stepHeight : ℝ
  slopeLimit : ℝ
  skinWidth : ℝ
  maxBounces : ℕ

/-- The constructor argument `Partial<CapsuleCollisionConfig>`: any subset
of the fields may be given; missing fields fall back to defaults. -/
structure ConfigOverrides where
  height : Option ℝ := none
  radius : Option ℝ := none
  stepHeight : Option ℝ := none
  slopeLimit : Option ℝ := none
  skinWidth : Option ℝ := none
  maxBounces : Option ℕ := none

/-- The constructor body of both revisions:
`this.config = { height: 1.8, radius: 0.4, stepHeight: 0.3, slopeLimit: 45,
skinWidth: 0.02, maxBounces: 4, ...cfg }` — a plain spread merge.  There is
no validation and no failure path: the function is total and returns the
given values unchanged. -/
noncomputable def mkConfig (c : ConfigOverrides) : Config :=
  { height := c.height.getD 1.8
    radius := c.radius.getD 0.4
    stepHeight := c.stepHeight.getD 0.3
    slopeLimit := c.slopeLimit.getD 45
    skinWidth := c.skinWidth.getD 0.02
    maxBounces := c.maxBounces.getD 4 }

/-- `getConfig`: returns a (shallow copy of) the stored configuration. -/
noncomputable def getConfig (c : Config) : Config := c

/-- `setSlopeLimit(degrees)`: `this.config.slopeLimit = Math.max(0, Math.min(90, degrees))`. -/
noncomputable def setSlopeLimit (c : Config) (degrees : ℝ) : Config :=
  { c with slopeLimit := max 0 (min 90 degrees) }

/-- `setStepHeight(h)`: stores the value unmodified. -/
noncomputable def setStepHeight (c : Config) (h : ℝ) : Config :=
  { c with stepHeight := h }

/-- A hit reported by the shape-query provider (`castShape` / `castRay`
result: time of impact, contact normal, contact point). -/
structure HitRec where
  distance : ℝ
  normal : Vec3
  point : Vec3

/-- The shape-query provider, abstracted as an oracle: origin, direction
and max distance to an optional hit.  Both `castCapsule` and `castRay`
ultimately have this shape; the solver treats the world as an opaque
read-only dependency. -/
def Oracle := Vec3 → Vec3 → ℝ → Option HitRec

/-- `CollisionResult`. -/
structure Result where
  position : Vec3
  velocity : Vec3
  grounded : Bool
  groundNormal : Vec3
  hitWall : Bool
  wallNormal : Vec3
  canStep : Bool

/-- The fresh result record built at the top of `moveWithCollision`. -/
noncomputable def initResult (pos vel : Vec3) : Result :=
  { position := pos
    velocity := vel
    grounded := false
    groundNormal := ⟨0, 1, 0⟩
    hitWall := false
    wallNormal := ⟨0, 0, 0⟩
    canStep := false }

/-- `calcSlide` (crash-safe revision) = `calculateSlideVector` (original):
vector rejection of the movement from the hit normal, with the vertical
component clamped to non-positive on steep upward-facing normals. -/
noncomputable def calcSlide (cfg : Config) (move n : Vec3) : Vec3 :=
  let slide := move - (move.dot n) • n
  if 0 < n.y ∧ n.y < Real.cos (cfg.slopeLimit * Real.pi / 180) then
    ⟨slide.x, min 0 slide.y, slide.z⟩
  else slide

/-- Outcome of the horizontal bounce loop: final position, wall flags, and
the number of loop iterations that processed a reported hit. -/
structure HorizOut where
  pos : Vec3
  hitWall : Bool
  wallNormal : Vec3
  hits : ℕ

/-- The `while` loop of `processHorizontal` (crash-safe revision).  The
fuel argument is `maxBounces - bounces`: the loop body runs only while
`bounces < maxBounces`, and `bounces` increments exactly when an iteration
hits and continues sliding.

Faithful details: the source calls
`this.castCapsule(res.position, left.normalize(), left.length(), ex)`;
`normalize()` mutates `left` in place before `left.length()` is evaluated,
so the sweep direction is the normalized vector and the max distance is
the length *after* normalization.  The subsequent uses of `left`
(`res.position.add(left)` on a miss, `left.length() - hit.distance`) also
see the normalized vector. -/
noncomputable def horizLoop (cfg : Config) (world : Oracle) :
    ℕ → Vec3 → Vec3 → Bool → Vec3 → HorizOut
  | 0, pos, _, hw, wn => ⟨pos, hw, wn, 0⟩
  | fuel + 1, pos, left, hw, wn =>
    if 0.000001 < left.lengthSq then
      match world pos left.normalize left.normalize.length with
      | none => ⟨pos + left.normalize, hw, wn, 0⟩
      | some hit =>
        if 0.000001 < left.normalize.length - hit.distance ∧
            0.000001 < (calcSlide cfg left.normalize hit.normal).lengthSq then
          let out := horizLoop cfg world fuel
            (pos + max 0 (hit.distance - cfg.skinWidth) • left.normalize)
            (((left.normalize.length - hit.distance) * 0.98) •
              calcSlide cfg left.normalize hit.normal)
            true hit.normal
          ⟨out.pos, out.hitWall, out.wallNormal, out.hits + 1⟩
        else ⟨pos + max 0 (hit.distance - cfg.skinWidth) • left.normalize, hw, wn, 1⟩
    else ⟨pos, hw, wn, 0⟩

/-- `processHorizontal` (crash-safe revision): runs the bounce loop, then
recomputes the horizontal velocity from the displacement achieved during
the phase divided by `dt` (when `dt > 0`). -/
noncomputable def processHorizontal (cfg : Config) (world : Oracle)
    (res : Result) (m : Vec3) (dt : ℝ) : Result :=
  let startPos := res.position
  let out := horizLoop cfg world cfg.maxBounces res.position m res.hitWall res.wallNormal
  let res2 : Result :=
    { res with position := out.pos, hitWall := out.hitWall, wallNormal := out.wallNormal }
  if 0 < dt then
    { res2 with velocity :=
        ⟨(out.pos.x - startPos.x) / dt, res2.velocity.y, (out.pos.z - startPos.z) / dt⟩ }
  else res2

/-- `processVertical` (crash-safe revision): one sweep along `±Y` for the
vertical distance; on a hit, clamp the position by the skin width and
clamp the vertical velocity; on a *descending* hit additionally set
`grounded := true` and record the normal. -/
noncomputable def processVertical (cfg : Config) (world : Oracle)
    (res : Result) (m : Vec3) : Result :=
  let dir : ℝ := if 0 < m.y then 1 else -1
  match world res.position ⟨0, dir, 0⟩ |m.y| with
  | none => { res with position := res.position + m }
  | some hit =>
    let safe := max 0 (hit.distance - cfg.skinWidth)
    let res2 : Result :=
      { res with
        position := ⟨res.position.x, res.position.y + dir * safe, res.position.z⟩
        velocity := ⟨res.velocity.x,
          if 0 < dir then min 0 res.velocity.y else max 0 res.velocity.y,
          res.velocity.z⟩ }
    if dir < 0 then { res2 with grounded := true, groundNormal := hit.normal } else res2

/-- `tryStepUp` (crash-safe revision).  Faithful detail: the forward probe
is `this.castCapsule(stepPos, orig.normalize(), orig.length(), ex)`, so
`orig` is normalized in place before its length is read — the probe
distance is the post-normalization length, and the subsequent
`stepPos.clone().add(orig)` adds the *normalized* vector. -/
noncomputable def tryStepUp (cfg : Config) (world : Oracle)
    (res : Result) (orig : Vec3) : Result :=
  match world res.position ⟨0, 1, 0⟩ cfg.stepHeight with
  | some _ => res
  | none =>
    match world (res.position + (⟨0, cfg.stepHeight, 0⟩ : Vec3)) orig.normalize
        orig.normalize.length with
    | some _ => res
    | none =>
      match world (res.position + (⟨0, cfg.stepHeight, 0⟩ : Vec3) + orig.normalize)
          ⟨0, -1, 0⟩ (cfg.stepHeight + cfg.skinWidth) with
      | none => res
      | some downHit =>
        if downHit.distance ≤ cfg.stepHeight then
          { res with
            position := res.position + (⟨0, cfg.stepHeight, 0⟩ : Vec3) + orig.normalize +
              (⟨0, -(downHit.distance - cfg.skinWidth), 0⟩ : Vec3)
            canStep := true
            hitWall := false }
        else res

/-- The five footprint sample offsets of `checkGrounded`, in sampling
order: center, `+X`, `-X`, `+Z`, `-Z`, each by `radius * 0.7`. -/
noncomputable def groundOffsets (cfg : Config) : List Vec3 :=
  [⟨0, 0, 0⟩,
   ⟨cfg.radius * 0.7, 0, 0⟩,
   ⟨-(cfg.radius * 0.7), 0, 0⟩,
   ⟨0, 0, cfg.radius * 0.7⟩,
   ⟨0, 0, -(cfg.radius * 0.7)⟩]

/-- Origin of a ground-probe ray: position plus footprint offset, lowered
to the bottom cap (`check.y -= height / 2 - radius`). -/
noncomputable def samplePoint (cfg : Config) (pos off : Vec3) : Vec3 :=
  ⟨pos.x + off.x, pos.y + off.y - (cfg.height / 2 - cfg.radius), pos.z + off.z⟩

/-- One ground-probe ray: straight down from the sample point, max
distance `skinWidth + 0.1`. -/
noncomputable def sampleHit (cfg : Config) (rays : Oracle) (pos off : Vec3) : Option HitRec :=
  rays (samplePoint cfg pos off) ⟨0, -1, 0⟩ (cfg.skinWidth + 0.1)

/-- The slope angle the classifier computes from a hit normal:
`Math.acos(normal.y) * (180 / Math.PI)`. -/
noncomputable def slopeDeg (n : Vec3) : ℝ := Real.arccos n.y * (180 / Real.pi)

/-- The `for` loop of `checkGrounded`: walk the sample offsets in order;
on the first hit whose slope angle is within the limit, set
`grounded := true` with that normal and return; otherwise keep probing;
falling through the loop leaves the result untouched. -/
noncomputable def groundLoop (cfg : Config) (rays : Oracle) (res : Result) :
    List Vec3 → Result
  | [] => res
  | off :: rest =>
    match sampleHit cfg rays res.position off with
    | some hit =>
      if slopeDeg hit.normal ≤ cfg.slopeLimit then
        { res with grounded := true, groundNormal := hit.normal }
      else groundLoop cfg rays res rest
    | none => groundLoop cfg rays res rest

/-- `checkGrounded` (both revisions agree): five downward rays over the
capsule footprint; the first hit within the slope limit grounds the
actor. -/
noncomputable def checkGrounded (cfg : Config) (rays : Oracle) (res : Result) : Result :=
  groundLoop cfg rays res (groundOffsets cfg)

/-- `moveWithCollision` (crash-safe revision): build the fresh result;
early-out (with a ground check) when the desired movement is negligible;
otherwise horizontal phase, vertical phase, ground check, and the step
climber when the horizontal phase ended with a wall hit. -/
noncomputable def moveWithCollision (cfg : Config) (world rays : Oracle)
    (pos vel : Vec3) (dt : ℝ) : Result :=
  let res0 := initResult pos vel
  let move := dt • vel
  if move.lengthSq < 0.000001 then checkGrounded cfg rays res0
  else
    let horiz : Vec3 := ⟨move.x, 0, move.z⟩
    let vert : Vec3 := ⟨0, move.y, 0⟩
    let res1 := if 0.000001 < horiz.lengthSq then processHorizontal cfg world res0 horiz dt else res0
    let res2 := if 0.000001 < |vert.y| then processVertical cfg world res1 vert else res1
    let res3 := checkGrounded cfg rays res2
    if res3.hitWall ∧ 0.000001 < horiz.lengthSq then tryStepUp cfg world res3 horiz else res3

/-- The `while` loop of `processHorizontalMovement` (original revision).
It differs from the crash-safe loop in using `length()` with threshold
`0.001` instead of `lengthSq()` with `1e-6`, guarding the position advance
by `safeDistance > 0.001`, and computing the unconsumed distance via
`min(hit.distance, remaining.length())`.  The same in-place
`normalize()` aliasing applies: after the cast arguments are evaluated,
`remainingMovement` is the unit direction. -/
noncomputable def horizLoopV1 (cfg : Config) (world : Oracle) :
    ℕ → Vec3 → Vec3 → Bool → Vec3 → HorizOut
  | 0, pos, _, hw, wn => ⟨pos, hw, wn, 0⟩
  | fuel + 1, pos, left, hw, wn =>
    if 0.001 < left.length then
      match world pos left.normalize left.normalize.length with
      | none => ⟨pos + left.normalize, hw, wn, 0⟩
      | some hit =>
        if 0.001 < left.normalize.length - min hit.distance left.normalize.length ∧
            0.001 < (calcSlide cfg left.normalize hit.normal).length then
          let out := horizLoopV1 cfg world fuel
            (if 0.001 < max 0 (hit.distance - cfg.skinWidth) then
              pos + max 0 (hit.distance - cfg.skinWidth) • left.normalize.normalize
             else pos)
            ((0.98 * (left.normalize.length - min hit.distance left.normalize.length)) •
              calcSlide cfg left.normalize hit.normal)
            true hit.normal
          ⟨out.pos, out.hitWall, out.wallNormal, out.hits + 1⟩
        else
          (if 0.001 < max 0 (hit.distance - cfg.skinWidth) then
            (⟨pos + max 0 (hit.distance - cfg.skinWidth) • left.normalize.normalize, hw, wn, 1⟩ : HorizOut)
           else ⟨pos, hw, wn, 1⟩)
    else ⟨pos, hw, wn, 0⟩

/-- `processHorizontalMovement` (original revision).  After the loop the
velocity update reads
`actualMovement = tempVectors[4].subVectors(result.position, movement).setY(0)`
— subtracting the *movement vector*, not the start position — and divides
by `performance.now() / 1000 - performance.now() / 1000 + 0.016`.  The two
timestamp reads are modelled as returning the same instant, so the divisor
is the constant `0.016` (the source comment itself calls it an
approximate delta time). -/
noncomputable def processHorizontalMovement (cfg : Config) (world : Oracle)
    (res : Result) (movement : Vec3) : Result :=
  let originalLength := movement.length
  let out := horizLoopV1 cfg world cfg.maxBounces res.position movement res.hitWall res.wallNormal
  let res2 : Result :=
    { res with position := out.pos, hitWall := out.hitWall, wallNormal := out.wallNormal }
  if 0 < originalLength then
    { res2 with velocity :=
        ⟨(out.pos.x - movement.x) / 0.016, res2.velocity.y, (out.pos.z - movement.z) / 0.016⟩ }
  else res2

/-! ## Concrete instances for counterexamples and witnesses -/

/-- The default configuration (no constructor overrides). -/
noncomputable def cfgD : Config := mkConfig {}

/-- A world with no geometry: every query misses. -/
def emptyWorld : Oracle := fun _ _ _ => none

/-- A hit on a vertical wall with normal `(-1,0,0)` at sweep distance 0.5. -/
noncomputable def wallHit : HitRec := ⟨0.5, ⟨-1, 0, 0⟩, ⟨0, 0, 0⟩⟩

/-- A world that reports `wallHit` for every query (head-on wall for a
capsule travelling along `+X`). -/
noncomputable def wallWorld : Oracle := fun _ _ _ => some wallHit

/-- A flat-ground hit: normal straight up, distance 0.05. -/
noncomputable def flatHit : HitRec := ⟨0.05, ⟨0, 1, 0⟩, ⟨0, 0, 0⟩⟩

/-- A world whose every query reports the flat-ground hit. -/
noncomputable def flatWorld : Oracle := fun _ _ _ => some flatHit

/-- A steep-slope hit: normal `(0, 1/2, √3/2)`-like with `y = 1/2`, i.e.
60° from vertical, steeper than the default 45° limit. -/
noncomputable def steepHit : HitRec := ⟨0.05, ⟨0, 1 / 2, 0⟩, ⟨0, 0, 0⟩⟩

/-- A world whose every query reports the steep-slope hit. -/
noncomputable def steepWorld : Oracle := fun _ _ _ => some steepHit

/-- A world with a wall reached at sweep distance `1.5` from the origin
when travelling along `+X`: a query from `pos` reports the wall exactly
when the remaining max distance reaches it. -/
noncomputable def wallAt15 : Oracle := fun pos _ maxDist =>
  if pos.x ≤ 1.5 ∧ 1.5 - pos.x ≤ maxDist then some ⟨1.5 - pos.x, ⟨-1, 0, 0⟩, ⟨0, 0, 0⟩⟩
  else none

/-- A world for the step climber: nothing above or ahead, and a landing
surface 0.25 below any downward probe. -/
noncomputable def stepWorld : Oracle := fun _ dir _ =>
  if dir.y < 0 then some ⟨0.25, ⟨0, 1, 0⟩, ⟨0, 0, 0⟩⟩ else none

/-- A fresh result at the origin with zero velocity. -/
noncomputable def res0 : Result := initResult ⟨0, 0, 0⟩ ⟨0, 0, 0⟩

/-- A result state as produced by a horizontal phase that was blocked by
a wall with normal `(-1,0,0)` (input state for the step climber). -/
noncomputable def resWall : Result := { res0 with hitWall := true, wallNormal := ⟨-1, 0, 0⟩ }

/-- A result marked grounded on a surface of the given normal — the exact
update the ground classifier applies on a successful sample. -/
noncomputable def groundedWith (res : Result) (n : Vec3) : Result :=
  { res with grounded := true, groundNormal := n }

/-! ## Helper lemmas (shared evaluation facts) -/

theorem lengthSq_mk (a b c : ℝ) : Vec3.lengthSq ⟨a, b, c⟩ = a * a + b * b + c * c := rfl

theorem length_unitX : Vec3.length ⟨1, 0, 0⟩ = 1 := by
  simp [Vec3.length, Vec3.lengthSq]

theorem normalize_unitX : Vec3.normalize ⟨1, 0, 0⟩ = ⟨1, 0, 0⟩ := by
  simp [Vec3.normalize, length_unitX]

theorem length_twoX : Vec3.length ⟨2, 0, 0⟩ = 2 := by
  have h4 : ((2 : ℝ) * 2 + 0 * 0 + 0 * 0) = 2 ^ 2 := by norm_num
  simp only [Vec3.length, Vec3.lengthSq, h4]
  exact Real.sqrt_sq (by norm_num)

theorem normalize_twoX : Vec3.normalize ⟨2, 0, 0⟩ = ⟨1, 0, 0⟩ := by
  simp only [Vec3.normalize, length_twoX]
  norm_num

theorem slopeDeg_up : slopeDeg ⟨0, 1, 0⟩ = 0 := by
  simp [slopeDeg, Real.arccos_one]

theorem slopeDeg_steep : slopeDeg ⟨0, 1 / 2, 0⟩ = 60 := by
  have h3 : Real.arccos (1 / 2) = Real.pi / 3 := by
    have hc : Real.cos (Real.pi / 3) = 1 / 2 := Real.cos_pi_div_three
    have := Real.arccos_cos (by positivity) (by
      have := Real.pi_pos
      linarith : Real.pi / 3 ≤ Real.pi)
    rw [hc] at this
    exact this
  have hpi := Real.pi_ne_zero
  simp only [slopeDeg, h3]
  field_simp
  ring

/-! ## Claim theorems -/

/-- C10: `setSlopeLimit(degrees)` clamps rather than rejects: the stored
slope limit becomes `max(0, min(90, degrees))`, so out-of-range arguments
never fail, and the boundary value 90 (excluded by the configuration
invariant `slopeLimit ∈ [0,90)`) is accepted and observable via
`getConfig`. -/
theorem setSlopeLimit_clamps :
    (∀ (cfg : Config) (d : ℝ),
      (getConfig (setSlopeLimit cfg d)).slopeLimit = max 0 (min 90 d)) ∧
    (getConfig (setSlopeLimit cfgD 90)).slopeLimit = 90 ∧
    (getConfig (setSlopeLimit cfgD 135)).slopeLimit = 90 ∧
    (getConfig (setSlopeLimit cfgD (-10))).slopeLimit = 0 := by
  refine ⟨fun cfg d => rfl, ?_, ?_, ?_⟩ <;>
    norm_num [getConfig, setSlopeLimit]

/-- C5 counterexample: constructing the solver with `radius = -1`
(violating `radius > 0`) does not fail — the value is stored unchanged,
so the resulting configuration breaks the invariant. -/
theorem mkConfig_accepts_negative_radius :
    (mkConfig { radius := some (-1) }).radius = -1 ∧
    ¬ (0 < (mkConfig { radius := some (-1) }).radius) := by
  constructor
  · rfl
  · show ¬ (0 < (-1 : ℝ))
    norm_num

/-- C5 amended: the constructor performs no validation at all — it is a
total spread-merge of the overrides over the defaults; any given value
(valid or not) is stored unmodified, and omitted fields become the
defaults `{1.8, 0.4, 0.3, 45, 0.02, 4}`.  No error is raised and no
clamping occurs. -/
theorem mkConfig_merges_without_validation :
    (∀ r : ℝ, (mkConfig { radius := some r }).radius = r) ∧
    (∀ (h r s sl sk : ℝ) (mb : ℕ),
      mkConfig ⟨some h, some r, some s, some sl, some sk, some mb⟩ =
        ⟨h, r, s, sl, sk, mb⟩) ∧
    mkConfig {} = ⟨1.8, 0.4, 0.3, 45, 0.02, 4⟩ :=
  ⟨fun _ => rfl, fun _ _ _ _ _ _ => rfl, rfl⟩

/-- C1 counterexample: a `moveWithCollision` vertical sweep that descends
onto geometry *does* change the grounded flag: starting from a result
with `grounded = false`, processing the descending hit sets
`grounded = true` inside the vertical phase itself, before the ground
classifier runs. -/
theorem processVertical_sets_grounded_on_descending_hit :
    res0.grounded = false ∧
    (processVertical cfgD flatWorld res0 ⟨0, -1, 0⟩).grounded = true := by
  constructor
  · rfl
  · show (processVertical cfgD flatWorld res0 ⟨0, -1, 0⟩).grounded = true
    rw [processVertical]
    norm_num [flatWorld]

/-- C1 amended: the vertical phase leaves `grounded` unchanged on an
ascending sweep or when the sweep reports no hit, but on a descending
sweep that hits it sets `grounded := true` itself, before the ground
classifier runs. -/
theorem processVertical_grounded_characterization :
    ∀ (cfg : Config) (world : Oracle) (res : Result) (m : Vec3),
      (processVertical cfg world res m).grounded =
        (if 0 < m.y then res.grounded
         else res.grounded || (world res.position ⟨0, -1, 0⟩ |m.y|).isSome) := by
  intro cfg world res m
  rw [processVertical]
  by_cases hy : 0 < m.y
  · simp only [hy, if_true]
    cases h : world res.position ⟨0, 1, 0⟩ |m.y| with
    | none => simp
    | some hit => norm_num
  · simp only [hy, if_false]
    cases h : world res.position ⟨0, -1, 0⟩ |m.y| with
    | none => simp
    | some hit => norm_num

/-- Helper for C8: the bounce loop processes at most `fuel` hits. -/
theorem horizLoop_hits_le_fuel (cfg : Config) (world : Oracle) :
    ∀ (fuel : ℕ) (pos left : Vec3) (hw : Bool) (wn : Vec3),
      (horizLoop cfg world fuel pos left hw wn).hits ≤ fuel := by
  intro fuel
  induction fuel with
  | zero => intro pos left hw wn; rw [horizLoop]
  | succ n ih =>
    intro pos left hw wn
    rw [horizLoop]
    by_cases h1 : (0.000001 : ℝ) < left.lengthSq
    · simp only [h1, if_true]
      cases h : world pos left.normalize left.normalize.length with
      | none => simp
      | some hit =>
        by_cases h2 : (0.000001 : ℝ) < left.normalize.length - hit.distance ∧
            (0.000001 : ℝ) < (calcSlide cfg left.normalize hit.normal).lengthSq
        · simp only [h2, if_true]
          exact Nat.succ_le_succ (ih _ _ _ _)
        · simp only [h2, if_false]
          exact Nat.le_add_left 1 n
    · simp only [h1, if_false]
      exact Nat.zero_le _

/-- C8: for every configuration with `maxBounces ≥ 1`, every input and
every behaviour of the shape-query oracle (including one that reports a
hit on each sweep), the horizontal bounce loop — entered with fuel
`maxBounces`, exactly as `processHorizontal` invokes it — terminates and
processes at most `maxBounces` hits. -/
theorem horizLoop_hits_le_maxBounces (cfg : Config) (world : Oracle)
    (pos left : Vec3) (hw : Bool) (wn : Vec3) (_hmb : 1 ≤ cfg.maxBounces) :
    (horizLoop cfg world cfg.maxBounces pos left hw wn).hits ≤ cfg.maxBounces :=
  horizLoop_hits_le_fuel cfg world cfg.maxBounces pos left hw wn

/-- C8 witness: the default configuration (`maxBounces = 4`) against a
world that reports a wall hit on every sweep. -/
theorem horizLoop_hits_le_maxBounces_witness :
    1 ≤ cfgD.maxBounces ∧
    (horizLoop cfgD wallWorld cfgD.maxBounces ⟨0, 0, 0⟩ ⟨1, 0, 0⟩ false ⟨0, 0, 0⟩).hits ≤
      cfgD.maxBounces :=
  ⟨by norm_num [cfgD, mkConfig],
   horizLoop_hits_le_maxBounces cfgD wallWorld ⟨0, 0, 0⟩ ⟨1, 0, 0⟩ false ⟨0, 0, 0⟩
     (by norm_num [cfgD, mkConfig])⟩

/-- Helper for C9: the ground classifier only ever touches `grounded` and
`groundNormal`; position, velocity and the wall/step flags pass through. -/
theorem groundLoop_preserves (cfg : Config) (rays : Oracle) (res : Result) :
    ∀ offs : List Vec3,
      (groundLoop cfg rays res offs).position = res.position ∧
      (groundLoop cfg rays res offs).velocity = res.velocity ∧
      (groundLoop cfg rays res offs).hitWall = res.hitWall ∧
      (groundLoop cfg rays res offs).wallNormal = res.wallNormal ∧
      (groundLoop cfg rays res offs).canStep = res.canStep := by
  intro offs
  induction offs with
  | nil => rw [groundLoop]; exact ⟨rfl, rfl, rfl, rfl, rfl⟩
  | cons off rest ih =>
    rw [groundLoop]
    cases h : sampleHit cfg rays res.position off with
    | none => exact ih
    | some hit =>
      by_cases hs : slopeDeg hit.normal ≤ cfg.slopeLimit
      · simp only [hs, if_true]
        simp
      · simp only [hs, if_false]
        exact ih

/-- C9: idempotence of rest — when the desired movement `velocity * dt`
is below the internal epsilon (`lengthSq < 1e-6`), `moveWithCollision`
returns the input position and velocity unchanged with
`hitWall = false`, `canStep = false` (and an untouched zero
`wallNormal`); only `grounded` and `groundNormal` depend on the scene. -/
theorem moveWithCollision_rest_idempotent (cfg : Config) (world rays : Oracle)
    (pos vel : Vec3) (dt : ℝ) (h : (dt • vel).lengthSq < 0.000001) :
    (moveWithCollision cfg world rays pos vel dt).position = pos ∧
    (moveWithCollision cfg world rays pos vel dt).velocity = vel ∧
    (moveWithCollision cfg world rays pos vel dt).hitWall = false ∧
    (moveWithCollision cfg world rays pos vel dt).canStep = false ∧
    (moveWithCollision cfg world rays pos vel dt).wallNormal = ⟨0, 0, 0⟩ := by
  have hmc : moveWithCollision cfg world rays pos vel dt =
      checkGrounded cfg rays (initResult pos vel) := by
    rw [moveWithCollision]
    simp only [h, if_true]
  have hp := groundLoop_preserves cfg rays (initResult pos vel) (groundOffsets cfg)
  rw [hmc]
  rw [checkGrounded]
  exact ⟨hp.1, hp.2.1, hp.2.2.1.trans rfl, hp.2.2.2.2.trans rfl, hp.2.2.2.1.trans rfl⟩

/-- C9 witness: zero desired velocity over an arbitrary concrete world. -/
theorem moveWithCollision_rest_idempotent_witness :
    ((1 : ℝ) • (⟨0, 0, 0⟩ : Vec3)).lengthSq < 0.000001 ∧
    (moveWithCollision cfgD flatWorld flatWorld ⟨5, 2, 3⟩ ⟨0, 0, 0⟩ 1).position = ⟨5, 2, 3⟩ ∧
    (moveWithCollision cfgD flatWorld flatWorld ⟨5, 2, 3⟩ ⟨0, 0, 0⟩ 1).velocity = ⟨0, 0, 0⟩ := by
  have h : ((1 : ℝ) • (⟨0, 0, 0⟩ : Vec3)).lengthSq < 0.000001 := by
    norm_num [Vec3.lengthSq]
  have := moveWithCollision_rest_idempotent cfgD flatWorld flatWorld ⟨5, 2, 3⟩ ⟨0, 0, 0⟩ 1 h
  exact ⟨h, this.1, this.2.1⟩

/-- C2 counterexample support: concrete evaluation of the bounce loop for
a capsule driven head-on into an orthogonal wall (movement `(1,0,0)`,
wall normal `(-1,0,0)`, hit at sweep distance 0.5).  The slide vector is
zero, so the loop takes the `break` before the `hitWall` assignment: the
position advances to the wall minus skin width, one hit is processed, and
the wall flags stay untouched. -/
theorem horizLoop_headon_eval :
    horizLoop cfgD wallWorld cfgD.maxBounces res0.position ⟨1, 0, 0⟩
        res0.hitWall res0.wallNormal =
      ⟨⟨0.48, 0, 0⟩, false, ⟨0, 0, 0⟩, 1⟩ := by
  show horizLoop cfgD wallWorld (3 + 1) ⟨0, 0, 0⟩ ⟨1, 0, 0⟩ false ⟨0, 0, 0⟩ = _
  rw [horizLoop]
  have h1 : (0.000001 : ℝ) < Vec3.lengthSq ⟨1, 0, 0⟩ := by norm_num [Vec3.lengthSq]
  rw [if_pos h1]
  simp only [normalize_unitX, length_unitX]
  show (if 0.000001 < (1 : ℝ) - wallHit.distance ∧
        0.000001 < (calcSlide cfgD ⟨1, 0, 0⟩ wallHit.normal).lengthSq then _ else _) = _
  have hslide : calcSlide cfgD ⟨1, 0, 0⟩ wallHit.normal = ⟨0, 0, 0⟩ := by
    rw [calcSlide]
    norm_num [wallHit, Vec3.dot]
  rw [if_neg (by rw [hslide]; norm_num [wallHit, Vec3.lengthSq])]
  show (⟨(⟨0, 0, 0⟩ : Vec3) + max 0 (wallHit.distance - cfgD.skinWidth) • ⟨1, 0, 0⟩,
         false, ⟨0, 0, 0⟩, 1⟩ : HorizOut) = _
  norm_num [wallHit, cfgD, mkConfig]

/-- C2 counterexample: the horizontal phase for a head-on hit into a wall
orthogonal to travel.  The sweep reports the hit (first conjunct), yet the
phase ends with `hitWall = false` and an untouched `wallNormal` — the hit
is not recorded, contradicting the claim that every reported hit is. -/
theorem processHorizontal_headon_not_recorded :
    wallWorld ⟨0, 0, 0⟩ ⟨1, 0, 0⟩ 1 = some wallHit ∧
    (processHorizontal cfgD wallWorld res0 ⟨1, 0, 0⟩ 1).hitWall = false ∧
    (processHorizontal cfgD wallWorld res0 ⟨1, 0, 0⟩ 1).wallNormal = ⟨0, 0, 0⟩ := by
  refine ⟨rfl, ?_, ?_⟩ <;>
    simp only [processHorizontal, horizLoop_headon_eval] <;> norm_num

/-- C2 amended: a hit reported by a sweep iteration is recorded in
`hitWall`/`wallNormal` only when the iteration continues sliding
afterwards (unconsumed distance above epsilon and a non-degenerate slide
vector).  In general the loop either leaves the wall flags exactly as it
received them, or ends with `hitWall = true` and `wallNormal` equal to
the normal of a hit the world reported (first conjunct); and an iteration
whose hit stops the slide — in particular a head-on hit into an
orthogonal wall — exits at once, leaving the incoming flags unchanged
(second conjunct). -/
theorem horizLoop_hitWall_recording :
    (∀ (cfg : Config) (world : Oracle) (fuel : ℕ) (pos left : Vec3) (hw : Bool) (wn : Vec3),
      ((horizLoop cfg world fuel pos left hw wn).hitWall = hw ∧
       (horizLoop cfg world fuel pos left hw wn).wallNormal = wn) ∨
      ((horizLoop cfg world fuel pos left hw wn).hitWall = true ∧
       ∃ (p d : Vec3) (h : HitRec), world p d d.length = some h ∧
         (horizLoop cfg world fuel pos left hw wn).wallNormal = h.normal)) ∧
    (∀ (cfg : Config) (world : Oracle) (fuel : ℕ) (pos left : Vec3) (hw : Bool) (wn : Vec3)
        (hit : HitRec),
      0.000001 < left.lengthSq →
      world pos left.normalize left.normalize.length = some hit →
      ¬(0.000001 < left.normalize.length - hit.distance ∧
         0.000001 < (calcSlide cfg left.normalize hit.normal).lengthSq) →
      horizLoop cfg world (fuel + 1) pos left hw wn =
        ⟨pos + max 0 (hit.distance - cfg.skinWidth) • left.normalize, hw, wn, 1⟩) := by
  constructor
  · intro cfg world fuel
    induction fuel with
    | zero =>
      intro pos left hw wn
      rw [horizLoop]
      exact Or.inl ⟨rfl, rfl⟩
    | succ n ih =>
      intro pos left hw wn
      rw [horizLoop]
      by_cases h1 : (0.000001 : ℝ) < left.lengthSq
      · rw [if_pos h1]
        cases hq : world pos left.normalize left.normalize.length with
        | none => exact Or.inl ⟨rfl, rfl⟩
        | some hit =>
          simp only []
          by_cases h2 : (0.000001 : ℝ) < left.normalize.length - hit.distance ∧
              (0.000001 : ℝ) < (calcSlide cfg left.normalize hit.normal).lengthSq
          · rw [if_pos h2]
            rcases ih (pos + max 0 (hit.distance - cfg.skinWidth) • left.normalize)
                (((left.normalize.length - hit.distance) * 0.98) •
                  calcSlide cfg left.normalize hit.normal) true hit.normal with
              hleft | hright
            · exact Or.inr ⟨hleft.1, pos, left.normalize, hit, hq, hleft.2⟩
            · rcases hright with ⟨hrw, p, d, h, hpd, hwn⟩
              exact Or.inr ⟨hrw, p, d, h, hpd, hwn⟩
          · rw [if_neg h2]
            exact Or.inl ⟨rfl, rfl⟩
      · rw [if_neg h1]
        exact Or.inl ⟨rfl, rfl⟩
  · intro cfg world fuel pos left hw wn hit h1 hq h2
    rw [horizLoop]
    rw [if_pos h1]
    simp only [hq]
    rw [if_neg h2]

/-- C2 witness: the second conjunct of the amended theorem applied to the
concrete head-on scenario, with every hypothesis discharged there. -/
theorem horizLoop_hitWall_recording_witness :
    horizLoop cfgD wallWorld (3 + 1) ⟨0, 0, 0⟩ ⟨1, 0, 0⟩ false ⟨0, 0, 0⟩ =
      ⟨⟨0.48, 0, 0⟩, false, ⟨0, 0, 0⟩, 1⟩ := by
  have happ := horizLoop_hitWall_recording.2 cfgD wallWorld 3 ⟨0, 0, 0⟩ ⟨1, 0, 0⟩
      false ⟨0, 0, 0⟩ wallHit
      (by norm_num [Vec3.lengthSq])
      rfl
      (by
        have hslide : calcSlide cfgD (Vec3.normalize ⟨1, 0, 0⟩) wallHit.normal = ⟨0, 0, 0⟩ := by
          rw [normalize_unitX, calcSlide]
          norm_num [wallHit, Vec3.dot]
        rw [hslide]
        norm_num [wallHit, Vec3.lengthSq])
  rw [happ, normalize_unitX]
  norm_num [wallHit, cfgD, mkConfig]

/-- Evaluation of the original-revision bounce loop on an unobstructed
move `(1,0,0)` from the origin: one iteration, no hit, position advances
by the (normalized) remaining vector. -/
theorem horizLoopV1_free_eval :
    horizLoopV1 cfgD emptyWorld cfgD.maxBounces res0.position ⟨1, 0, 0⟩
        res0.hitWall res0.wallNormal =
      ⟨⟨1, 0, 0⟩, false, ⟨0, 0, 0⟩, 0⟩ := by
  show horizLoopV1 cfgD emptyWorld (3 + 1) ⟨0, 0, 0⟩ ⟨1, 0, 0⟩ false ⟨0, 0, 0⟩ = _
  rw [horizLoopV1]
  rw [if_pos (by rw [length_unitX]; norm_num : (0.001 : ℝ) < Vec3.length ⟨1, 0, 0⟩)]
  show (⟨(⟨0, 0, 0⟩ : Vec3) + Vec3.normalize ⟨1, 0, 0⟩, false, ⟨0, 0, 0⟩, 0⟩ : HorizOut) = _
  rw [normalize_unitX]
  norm_num

/-- Evaluation of the crash-safe bounce loop on the same unobstructed
move. -/
theorem horizLoop_free_eval :
    horizLoop cfgD emptyWorld cfgD.maxBounces res0.position ⟨1, 0, 0⟩
        res0.hitWall res0.wallNormal =
      ⟨⟨1, 0, 0⟩, false, ⟨0, 0, 0⟩, 0⟩ := by
  show horizLoop cfgD emptyWorld (3 + 1) ⟨0, 0, 0⟩ ⟨1, 0, 0⟩ false ⟨0, 0, 0⟩ = _
  rw [horizLoop]
  rw [if_pos (by norm_num [Vec3.lengthSq] : (0.000001 : ℝ) < Vec3.lengthSq ⟨1, 0, 0⟩)]
  show (⟨(⟨0, 0, 0⟩ : Vec3) + Vec3.normalize ⟨1, 0, 0⟩, false, ⟨0, 0, 0⟩, 0⟩ : HorizOut) = _
  rw [normalize_unitX]
  norm_num

/-- C3: the original revision's post-loop velocity update is broken.  On
an unobstructed horizontal move `(1,0,0)` from the origin (e.g. desired
velocity `(2,0,0)` with `dt = 0.5`) it computes
`(position - movement).x / 0.016 = 0`, while the claim (and the spec)
require displacement divided by the call's `deltaTime`, i.e. `2` — which
is exactly what the crash-safe revision's `processHorizontal` returns on
the same input (second conjunct). -/
theorem processHorizontalMovement_velocity_bug :
    (processHorizontalMovement cfgD emptyWorld res0 ⟨1, 0, 0⟩).velocity.x = 0 ∧
    (processHorizontal cfgD emptyWorld res0 ⟨1, 0, 0⟩ 0.5).velocity.x = 2 := by
  constructor
  · simp only [processHorizontalMovement, horizLoopV1_free_eval, length_unitX]
    norm_num
  · simp only [processHorizontal, horizLoop_free_eval]
    norm_num [res0, initResult]

/-- Evaluation of the crash-safe bounce loop for remaining displacement
`(2,0,0)` against the wall whose sweep distance from the origin is 1.5:
because the issued max distance is the *post-normalization* length 1, the
sweep misses the wall and the loop advances by the unit vector only. -/
theorem horizLoop_wallAt15_eval :
    horizLoop cfgD wallAt15 cfgD.maxBounces res0.position ⟨2, 0, 0⟩
        res0.hitWall res0.wallNormal =
      ⟨⟨1, 0, 0⟩, false, ⟨0, 0, 0⟩, 0⟩ := by
  show horizLoop cfgD wallAt15 (3 + 1) ⟨0, 0, 0⟩ ⟨2, 0, 0⟩ false ⟨0, 0, 0⟩ = _
  rw [horizLoop]
  rw [if_pos (by norm_num [Vec3.lengthSq] : (0.000001 : ℝ) < Vec3.lengthSq ⟨2, 0, 0⟩)]
  have hnone : wallAt15 ⟨0, 0, 0⟩ (Vec3.normalize ⟨2, 0, 0⟩)
      (Vec3.normalize ⟨2, 0, 0⟩).length = none := by
    rw [normalize_twoX, length_unitX]
    simp only [wallAt15]
    rw [if_neg]
    norm_num
  rw [hnone]
  show (⟨(⟨0, 0, 0⟩ : Vec3) + Vec3.normalize ⟨2, 0, 0⟩, false, ⟨0, 0, 0⟩, 0⟩ : HorizOut) = _
  rw [normalize_twoX]
  norm_num

/-- C4: the sweep is *not* issued for the pre-normalization length of the
remaining displacement.  With remaining displacement `(2,0,0)` and a wall
at sweep distance 1.5 — within the remaining travel — the phase misses
the wall entirely (`hitWall = false`) and moves only the unit vector,
because the issued max distance is the length measured *after* the
in-place normalization, namely `1` (last conjunct); a sweep of max
distance 2, as the claim requires, would have reported the wall (third
conjunct). -/
theorem processHorizontal_sweep_length_bug :
    (processHorizontal cfgD wallAt15 res0 ⟨2, 0, 0⟩ 1).position = ⟨1, 0, 0⟩ ∧
    (processHorizontal cfgD wallAt15 res0 ⟨2, 0, 0⟩ 1).hitWall = false ∧
    wallAt15 ⟨0, 0, 0⟩ ⟨1, 0, 0⟩ 2 = some ⟨1.5, ⟨-1, 0, 0⟩, ⟨0, 0, 0⟩⟩ ∧
    Vec3.length (Vec3.normalize ⟨2, 0, 0⟩) = 1 := by
  refine ⟨?_, ?_, ?_, ?_⟩
  · simp only [processHorizontal, horizLoop_wallAt15_eval]
    norm_num
  · simp only [processHorizontal, horizLoop_wallAt15_eval]
    norm_num
  · norm_num [wallAt15]
  · rw [normalize_twoX, length_unitX]

/-- C7: the step climber's forward probe and landing use the
*normalized* original displacement (max distance 1), not the original
displacement itself.  With pre-slide horizontal displacement `(2,0,0)`,
clear headroom, a clear forward probe and a landing 0.25 below, the
committed position is `x = 1` — the raised position plus the *unit*
direction (last conjunct) — and not `x = 2` as the claim's landing point
(raised position plus the original displacement) would give;
`canStep`/`hitWall` are set as claimed. -/
theorem tryStepUp_forward_distance_bug :
    (tryStepUp cfgD stepWorld resWall ⟨2, 0, 0⟩).position = ⟨1, 0.07, 0⟩ ∧
    (tryStepUp cfgD stepWorld resWall ⟨2, 0, 0⟩).canStep = true ∧
    (tryStepUp cfgD stepWorld resWall ⟨2, 0, 0⟩).hitWall = false ∧
    Vec3.normalize ⟨2, 0, 0⟩ = ⟨1, 0, 0⟩ := by
  have h1 : stepWorld resWall.position ⟨0, 1, 0⟩ cfgD.stepHeight = none := by
    simp only [stepWorld]
    rw [if_neg]
    norm_num
  have h2 : stepWorld (resWall.position + (⟨0, cfgD.stepHeight, 0⟩ : Vec3))
      (Vec3.normalize ⟨2, 0, 0⟩) (Vec3.normalize ⟨2, 0, 0⟩).length = none := by
    simp only [stepWorld, normalize_twoX]
    rw [if_neg]
    norm_num
  have h3 : stepWorld (resWall.position + (⟨0, cfgD.stepHeight, 0⟩ : Vec3) +
        Vec3.normalize ⟨2, 0, 0⟩) ⟨0, -1, 0⟩ (cfgD.stepHeight + cfgD.skinWidth) =
      some ⟨0.25, ⟨0, 1, 0⟩, ⟨0, 0, 0⟩⟩ := by
    simp only [stepWorld]
    rw [if_pos]
    norm_num
  refine ⟨?_, ?_, ?_, normalize_twoX⟩ <;>
  · rw [tryStepUp, h1, h2, h3]
    norm_num [resWall, res0, initResult, normalize_twoX, cfgD, mkConfig, Option.getD_none]

/-- Helper for C6: when every sampled ray that hits reports a
steeper-than-limit normal, the classifier loop returns the result
untouched. -/
theorem groundLoop_all_steep (cfg : Config) (rays : Oracle) (res : Result) :
    ∀ offs : List Vec3,
      (∀ off ∈ offs, ∀ h : HitRec,
        sampleHit cfg rays res.position off = some h →
          cfg.slopeLimit < slopeDeg h.normal) →
      groundLoop cfg rays res offs = res := by
  intro offs
  induction offs with
  | nil => intro _; rw [groundLoop]
  | cons off rest ih =>
    intro hall
    rw [groundLoop]
    cases hs : sampleHit cfg rays res.position off with
    | none => exact ih fun o ho h hh => hall o (List.mem_cons_of_mem _ ho) h hh
    | some h =>
      have hsteep := hall off (List.mem_cons_self off rest) h hs
      show (if slopeDeg h.normal ≤ cfg.slopeLimit then
          ({ res with grounded := true, groundNormal := h.normal } : Result)
        else groundLoop cfg rays res rest) = res
      rw [if_neg (not_le.mpr hsteep)]
      exact ih fun o ho h2 hh => hall o (List.mem_cons_of_mem _ ho) h2 hh

/-- C6: the ground classifier casts five downward rays — footprint
center, then `±X`, `±Z` offsets of `0.7 * radius`, in that order (first
conjunct; their origin and max length `skinWidth + 0.1` are fixed in
`sampleHit`).  If the first ray (in sampling order) that hits reports a
normal within the slope limit, the classifier grounds the actor with
that normal and is independent of the remaining rays (conjuncts 2–6,
one per position of the first hit); if every sampled hit is steeper than
the limit, the actor stays ungrounded even though geometry was touched
(last conjunct). -/
theorem checkGrounded_classifier_spec (cfg : Config) (rays : Oracle) (res : Result)
    (hres : res.grounded = false) :
    groundOffsets cfg =
      [⟨0, 0, 0⟩, ⟨cfg.radius * 0.7, 0, 0⟩, ⟨-(cfg.radius * 0.7), 0, 0⟩,
       ⟨0, 0, cfg.radius * 0.7⟩, ⟨0, 0, -(cfg.radius * 0.7)⟩] ∧
    (∀ h1 : HitRec, sampleHit cfg rays res.position ⟨0, 0, 0⟩ = some h1 →
      slopeDeg h1.normal ≤ cfg.slopeLimit →
      checkGrounded cfg rays res = groundedWith res h1.normal) ∧
    (∀ h2 : HitRec, sampleHit cfg rays res.position ⟨0, 0, 0⟩ = none →
      sampleHit cfg rays res.position ⟨cfg.radius * 0.7, 0, 0⟩ = some h2 →
      slopeDeg h2.normal ≤ cfg.slopeLimit →
      checkGrounded cfg rays res = groundedWith res h2.normal) ∧
    (∀ h3 : HitRec, sampleHit cfg rays res.position ⟨0, 0, 0⟩ = none →
      sampleHit cfg rays res.position ⟨cfg.radius * 0.7, 0, 0⟩ = none →
      sampleHit cfg rays res.position ⟨-(cfg.radius * 0.7), 0, 0⟩ = some h3 →
      slopeDeg h3.normal ≤ cfg.slopeLimit →
      checkGrounded cfg rays res = groundedWith res h3.normal) ∧
    (∀ h4 : HitRec, sampleHit cfg rays res.position ⟨0, 0, 0⟩ = none →
      sampleHit cfg rays res.position ⟨cfg.radius * 0.7, 0, 0⟩ = none →
      sampleHit cfg rays res.position ⟨-(cfg.radius * 0.7), 0, 0⟩ = none →
      sampleHit cfg rays res.position ⟨0, 0, cfg.radius * 0.7⟩ = some h4 →
      slopeDeg h4.normal ≤ cfg.slopeLimit →
      checkGrounded cfg rays res = groundedWith res h4.normal) ∧
    (∀ h5 : HitRec, sampleHit cfg rays res.position ⟨0, 0, 0⟩ = none →
      sampleHit cfg rays res.position ⟨cfg.radius * 0.7, 0, 0⟩ = none →
      sampleHit cfg rays res.position ⟨-(cfg.radius * 0.7), 0, 0⟩ = none →
      sampleHit cfg rays res.position ⟨0, 0, cfg.radius * 0.7⟩ = none →
      sampleHit cfg rays res.position ⟨0, 0, -(cfg.radius * 0.7)⟩ = some h5 →
      slopeDeg h5.normal ≤ cfg.slopeLimit →
      checkGrounded cfg rays res = groundedWith res h5.normal) ∧
    ((∀ off ∈ groundOffsets cfg, ∀ h : HitRec,
        sampleHit cfg rays res.position off = some h →
          cfg.slopeLimit < slopeDeg h.normal) →
      (checkGrounded cfg rays res).grounded = false) := by
  refine ⟨rfl, ?_, ?_, ?_, ?_, ?_, ?_⟩
  · intro h1 hs hslope
    rw [checkGrounded, groundOffsets, groundLoop]
    simp only [hs]
    rw [if_pos hslope]
    rfl
  · intro h2 h0 hs hslope
    rw [checkGrounded, groundOffsets, groundLoop]
    simp only [h0]
    rw [groundLoop]
    simp only [hs]
    rw [if_pos hslope]
    rfl
  · intro h3 h0 ha hs hslope
    rw [checkGrounded, groundOffsets, groundLoop]
    simp only [h0]
    rw [groundLoop]
    simp only [ha]
    rw [groundLoop]
    simp only [hs]
    rw [if_pos hslope]
    rfl
  · intro h4 h0 ha hb hs hslope
    rw [checkGrounded, groundOffsets, groundLoop]
    simp only [h0]
    rw [groundLoop]
    simp only [ha]
    rw [groundLoop]
    simp only [hb]
    rw [groundLoop]
    simp only [hs]
    rw [if_pos hslope]
    rfl
  · intro h5 h0 ha hb hc hs hslope
    rw [checkGrounded, groundOffsets, groundLoop]
    simp only [h0]
    rw [groundLoop]
    simp only [ha]
    rw [groundLoop]
    simp only [hb]
    rw [groundLoop]
    simp only [hc]
    rw [groundLoop]
    simp only [hs]
    rw [if_pos hslope]
    rfl
  · intro hall
    rw [checkGrounded, groundLoop_all_steep cfg rays res (groundOffsets cfg) hall]
    exact hres

/-- C6 witness: over a flat world the first (center) ray grounds the
actor with normal `(0,1,0)`; over a uniform 60°-steep world no sampled
ray passes the 45° limit and the actor stays ungrounded. -/
theorem checkGrounded_classifier_spec_witness :
    checkGrounded cfgD flatWorld res0 = groundedWith res0 ⟨0, 1, 0⟩ ∧
    (checkGrounded cfgD steepWorld res0).grounded = false := by
  constructor
  · have h := (checkGrounded_classifier_spec cfgD flatWorld res0 rfl).2.1 flatHit rfl
      (by rw [show flatHit.normal = ⟨0, 1, 0⟩ from rfl, slopeDeg_up]
          norm_num [cfgD, mkConfig])
    exact h
  · refine (checkGrounded_classifier_spec cfgD steepWorld res0 rfl).2.2.2.2.2.2 ?_
    intro off hoff h hh
    have hh2 : (some steepHit : Option HitRec) = some h := (rfl : sampleHit cfgD steepWorld res0.position off = some steepHit).symm.trans hh
    injection hh2 with he
    rw [← he, show steepHit.normal = ⟨0, 1 / 2, 0⟩ from rfl, slopeDeg_steep]
    norm_num [cfgD, mkConfig]
